import Mathlib

set_option linter.unusedVariables false

/-!
# Verification of the RAG-dgt Telegram bot against its specification

Shallow embedding of the parts of `bot.py`, `rag.py`, `parsing.py` and
`rag_test.py` that the specification's claims are about, followed by theorems
settling each claim.
-/

/-! ## Rate limiter (`bot.py`, `check_and_increment_limit`)

The sqlite table `user_limits (user_id INTEGER PRIMARY KEY, date TEXT,
count INTEGER)` is modelled as a map from user id to the stored
`(date, count)` row, `none` when no row exists for that user.  The upsert
`INSERT ... ON CONFLICT(user_id) DO UPDATE SET date=excluded.date,
count=excluded.count` is a point update of that map.  `LIMIT_PER_DAY` is an
environment-configured Python `int`, modelled as `Int`; `today` is the
formatted UTC date string. -/

def Store : Type := Int → Option (String × Int)

/-- The count `check_and_increment_limit` derives from the stored row
(bot.py lines 197-200): `0` when the row is absent or its date differs from
`today`, the stored count otherwise. -/
def effectiveCount (today : String) (store : Store) (uid : Int) : Int :=
  match store uid with
  | none => 0
  | some (d, c) => if d = today then c else 0

/-- Model of check_and_increment_limit from bot.py (lines 185-217): derive the
current count, deny with `(False, 0)` when `count >= LIMIT_PER_DAY`
(leaving the table untouched), otherwise increment, upsert the row for
`today`, and return `(True, max(LIMIT_PER_DAY - count, 0))`. -/
def check_and_increment_limit (limitPerDay : Int) (today : String)
    (store : Store) (uid : Int) : (Bool × Int) × Store :=
  let count := effectiveCount today store uid
  if limitPerDay ≤ count then
    ((false, 0), store)
  else
    let count' := count + 1
    ((true, max (limitPerDay - count') 0),
      fun u => if u = uid then some (today, count') else store u)

/-- Run a sequence of requests (list of user ids) against the store, all on
the same UTC day, threading the store through. -/
def runCalls (limitPerDay : Int) (today : String) :
    Store → List Int → Store
  | store, [] => store
  | store, u :: rest =>
      runCalls limitPerDay today
        (check_and_increment_limit limitPerDay today store u).2 rest

/-- How many requests in the sequence `calls` are permitted (return value
`True`) for the tracked user `uid`. -/
def permitsFor (limitPerDay : Int) (today : String) :
    Store → List Int → Int → Nat
  | _, [], _ => 0
  | store, u :: rest, uid =>
      let r := check_and_increment_limit limitPerDay today store u
      (if u = uid ∧ r.1.1 = true then 1 else 0) +
        permitsFor limitPerDay today r.2 rest uid

/-! ## Message chunking (`bot.py`, `handle_image`)

`for i in range(0, len(output_text), max_len): await safe_reply(message,
output_text[i : i + max_len])` with `max_len = 3500` (bot.py lines 156-158;
the same pattern for the error branch at lines 125-127).  A Python `str` is a
sequence of Unicode code points, modelled as `List Char`. -/

/-- The successive slices `s[i : i + 3500]` for `i = 0, 3500, 7000, ...`
produced by the sending loop. -/
def chunks3500 : List Char → List (List Char)
  | [] => []
  | c :: cs => (c :: cs).take 3500 :: chunks3500 ((c :: cs).drop 3500)
termination_by l => l.length
decreasing_by simp; omega

/-- The chunked messages `handle_image` sends for output text `s`, in
sending order. -/
def sentChunks (s : String) : List String :=
  (chunks3500 s.data).map fun l => String.mk l

/-! ## Index load/build (`rag.py`, `_load_index`)

The filesystem state and the third-party index operations are opaque to
this code; what `_load_index` decides is which actions run, on which
branch.  `PREBUILT_INDEX` defaults to `"1"` (on). -/

inductive IdxAction : Type
  | loadStorage
  | readDocs
  | buildIndex
  | persistIdx
deriving DecidableEq

/-- Model of the flag prebuilt_only = os.getenv("PREBUILT_INDEX", "1") == "1" (rag.py line
77): `env` is the variable's value, `none` when unset. -/
def prebuilt_index_flag (env : Option String) : Bool :=
  env.getD "1" = "1"

/-- Model of _load_index from rag.py (lines 75-90), as the branch on persistence
state: when the persist directory is missing and `prebuilt_only` is set it
raises `RuntimeError`; when missing and unset it reads the documents,
builds the index and persists it; when present it loads from storage. -/
def load_index (persistDir : String) (persistDirExists prebuiltOnly : Bool) :
    Except String (List IdxAction) :=
  if !persistDirExists then
    if prebuiltOnly then
      Except.error ("Prebuilt index not found at " ++ persistDir ++
        ". Build it locally and include the storage directory in the image.")
    else
      Except.ok [IdxAction.readDocs, IdxAction.buildIndex, IdxAction.persistIdx]
  else
    Except.ok [IdxAction.loadStorage]

/-! ## The CLI RAG test runner (`rag_test.py`)

`rag_test.py` line 6 is `from rag import get_query_engine`, executed at
module load, before `argparse` ever sees the command line.  The names the
`rag` module defines at top level (imports, module globals and functions,
rag.py lines 1-132) are listed below; a `from rag import X` with `X` not
among them raises `ImportError`. -/

def rag_module_names : List String :=
  ["os", "logging", "Settings", "SimpleDirectoryReader", "StorageContext",
   "VectorStoreIndex", "load_index_from_storage", "PromptTemplate",
   "OpenAIEmbedding", "Ollama", "load_dotenv", "configure_llm",
   "_index", "_retriever", "logger", "_load_index", "_get_retriever",
   "answer_query"]

/-- Model of the statement from rag import get_query_engine (rag_test.py line 6). -/
def rag_test_import : Except String Unit :=
  if "get_query_engine" ∈ rag_module_names then Except.ok ()
  else Except.error "ImportError: cannot import name get_query_engine from rag"

/-- Running `rag_test.py` on any command-line input: the import statement
runs first; the rest of the module is reached only if it succeeds. -/
def rag_test_run (input : String) : Except String String :=
  match rag_test_import with
  | Except.error e => Except.error e
  | Except.ok _ => Except.ok input

/-! ## Reply retries (`bot.py`, `safe_reply`)

`safe_reply` loops `for attempt in range(retries)`: a successful
`reply_text` returns; `except RetryAfter` sleeps `retry_after + 1` and
continues; the bare `except Exception` logs, sleeps 1 second and also
continues.  After the loop one last `reply_text` runs outside any
`try`, so its exception propagates.  The network is modelled as an oracle
giving the outcome of each successive send attempt. -/

inductive SendOutcome : Type
  | sendOk
  | retryAfter (seconds : Nat)
  | otherErr
deriving DecidableEq

inductive ReplyResult : Type
  | sent (attempts : Nat)
  | raised (attempts : Nat)
deriving DecidableEq

/-- Total number of `reply_text` calls a result accounts for. -/
def attemptsOf : ReplyResult → Nat
  | ReplyResult.sent n => n
  | ReplyResult.raised n => n

/-- The loop of `safe_reply` from attempt index `i` with `fuel` loop
iterations left, then the final unguarded send. -/
def safeReplyFrom (outcome : Nat → SendOutcome) : Nat → Nat → ReplyResult
  | i, 0 =>
      match outcome i with
      | SendOutcome.sendOk => ReplyResult.sent (i + 1)
      | _ => ReplyResult.raised (i + 1)
  | i, fuel + 1 =>
      match outcome i with
      | SendOutcome.sendOk => ReplyResult.sent (i + 1)
      | _ => safeReplyFrom outcome (i + 1) fuel

/-- Model of safe_reply from bot.py (lines 171-182); `retries` defaults to 3. -/
def safe_reply (outcome : Nat → SendOutcome) (retries : Nat) : ReplyResult :=
  safeReplyFrom outcome 0 retries

/-! ## Python values, dicts, and `format_result` (`bot.py`, lines 41-74)

Dicts are association lists from string keys to Python values.  The value
domain covers the shapes the bot's JSON handling produces and the ones the
code distinguishes: `None`, strings, ints, bools, and (flat) lists.
Python behaviours the code relies on are modelled explicitly: key lookup
with a default, truthiness, `str()`, `.strip()` (raises `AttributeError`
on non-strings), and iteration (strings iterate as 1-character strings,
non-sequences raise `TypeError`).  `.strip()` removes the ASCII whitespace
characters from both ends. -/

inductive PyAtom : Type
  | aNone
  | aStr (s : String)
  | aInt (n : Int)
  | aBool (b : Bool)
deriving DecidableEq

inductive PyVal : Type
  | pyNone
  | pyStr (s : String)
  | pyInt (n : Int)
  | pyBool (b : Bool)
  | pyList (xs : List PyAtom)
deriving DecidableEq

abbrev PyDict : Type := List (String × PyVal)

inductive PyErr : Type
  | attributeError
  | typeError
deriving DecidableEq

/-- Membership test `k in data` on a Python dict. -/
def hasKey (d : PyDict) (k : String) : Bool :=
  d.any fun p => p.1 == k

/-- Lookup `data[k]`, `none` when the key is absent. -/
def dictGet (d : PyDict) (k : String) : Option PyVal :=
  (d.find? fun p => p.1 == k).map Prod.snd

/-- Lookup with default, `data.get(k, v)`. -/
def dictGetD (d : PyDict) (k : String) (v : PyVal) : PyVal :=
  (dictGet d k).getD v

/-- Python truthiness of a value. -/
def truthy : PyVal → Bool
  | PyVal.pyNone => false
  | PyVal.pyStr s => !(s == "")
  | PyVal.pyInt n => !(n == 0)
  | PyVal.pyBool b => b
  | PyVal.pyList xs => !xs.isEmpty

/-- Python `repr` of an atom (the string case approximates CPython's quote
selection by always using single quotes). -/
def atomRepr : PyAtom → String
  | PyAtom.aNone => "None"
  | PyAtom.aStr s => "\x27" ++ s ++ "\x27"
  | PyAtom.aInt n => toString n
  | PyAtom.aBool true => "True"
  | PyAtom.aBool false => "False"

/-- Python `str()` of a value; `str` of a list uses the `repr` of its
elements. -/
def pyStrOf : PyVal → String
  | PyVal.pyStr s => s
  | PyVal.pyNone => "None"
  | PyVal.pyInt n => toString n
  | PyVal.pyBool true => "True"
  | PyVal.pyBool false => "False"
  | PyVal.pyList xs => "[" ++ String.intercalate ", " (xs.map atomRepr) ++ "]"

/-- Python whitespace stripped by `str.strip()` (ASCII part). -/
def isPyWs (c : Char) : Bool :=
  c == ' ' || c == '\t' || c == '\n' || c == '\r' || c == '\x0b' || c == '\x0c'

def trimChars (l : List Char) : List Char :=
  ((l.dropWhile isPyWs).reverse.dropWhile isPyWs).reverse

/-- Python `s.strip()` on a string. -/
def pyStripStr (s : String) : String :=
  String.mk (trimChars s.data)

/-- Python `v.strip()`: `AttributeError` unless `v` is a string. -/
def pyStrip : PyVal → Except PyErr String
  | PyVal.pyStr s => Except.ok (pyStripStr s)
  | _ => Except.error PyErr.attributeError

/-- Embed a list element back into the value domain. -/
def PyVal.ofAtom : PyAtom → PyVal
  | PyAtom.aNone => PyVal.pyNone
  | PyAtom.aStr s => PyVal.pyStr s
  | PyAtom.aInt n => PyVal.pyInt n
  | PyAtom.aBool b => PyVal.pyBool b

/-- Python iteration `for x in v`: lists yield their elements, strings
yield 1-character strings, anything else raises `TypeError`. -/
def pyIter : PyVal → Except PyErr (List PyVal)
  | PyVal.pyList xs => Except.ok (xs.map PyVal.ofAtom)
  | PyVal.pyStr s => Except.ok (s.data.map fun c => PyVal.pyStr (String.mk [c]))
  | _ => Except.error PyErr.typeError

/-- Python `v or ""`. -/
def pyOrEmptyStr (v : PyVal) : PyVal :=
  if truthy v then v else PyVal.pyStr ""

def fallbackMsg : String :=
  "No useful text could be extracted from the image."

/-- Model of format_result from bot.py (lines 41-74).  An exception raised
by a Python operation (e.g. `.strip()` on a non-string) is an
`Except.error`; a returned chat message is `Except.ok`. -/
def format_result (data : PyDict) : Except PyErr String :=
  if hasKey data "error" then
    Except.ok ("Error: " ++ pyStrOf (dictGetD data "error" PyVal.pyNone) ++
      "\n\nRaw output:\n" ++ pyStrOf (dictGetD data "raw" (PyVal.pyStr "")))
  else
    match pyStrip (dictGetD data "question" (PyVal.pyStr "")) with
    | Except.error e => Except.error e
    | Except.ok question =>
      let lines1 := if question ≠ "" then ["Question: " ++ question] else []
      match (if truthy (dictGetD data "options" (PyVal.pyList [])) then
          (pyIter (dictGetD data "options" (PyVal.pyList []))).map
            (fun opts => lines1 ++ [""] ++ (opts.filterMap fun v =>
              match v with
              | PyVal.pyStr s => some s
              | _ => none))
        else Except.ok lines1) with
      | Except.error e => Except.error e
      | Except.ok lines2 =>
        let correct := dictGetD data "correct" PyVal.pyNone
        let lines3 := if truthy correct then
            lines2 ++ ["", "Correct answer: " ++ pyStrOf correct] else lines2
        match pyStrip (pyOrEmptyStr (dictGetD data "explanation" PyVal.pyNone)) with
        | Except.error e => Except.error e
        | Except.ok explanation =>
          let lines4 := if explanation ≠ "" then
              lines3 ++ ["", "Explanation from LLM:", explanation] else lines3
          match pyStrip (pyOrEmptyStr
              (dictGetD data "sign_description" PyVal.pyNone)) with
          | Except.error e => Except.error e
          | Except.ok sign =>
            let lines5 := if sign ≠ "" then
                lines4 ++ ["", "Sign: " ++ sign] else lines4
            if lines5 = [] then Except.ok fallbackMsg
            else Except.ok (String.intercalate "\n" lines5)

/-! ## JSON-parse failure handling (`parsing.py`, `parse_screenshot` lines 83-97)

`raw_text` is the (already `.strip()`-ed) vision-model output.  Inside the
`try`, a ```` ```json ```` fence (or a bare ```` ``` ```` fence) is removed
by `split`, and `json.loads` runs on the result; any exception yields the
dict `{"error": "Failed to parse JSON", "raw": raw_text}` — where
`raw_text` has already been reassigned to the fence-stripped text.  The
JSON parser itself is an oracle `jsonLoads`; `none` is a parse failure.
Python's `str.split(sep)` for a non-empty separator is `pySplit`. -/

def pySplitGo (sep : List Char) : Nat → List Char → List Char → List (List Char)
  | 0, l, cur => [cur.reverse ++ l]
  | fuel + 1, l, cur =>
      match l with
      | [] => [cur.reverse]
      | c :: cs =>
          if sep.isPrefixOf (c :: cs) then
            cur.reverse :: pySplitGo sep fuel ((c :: cs).drop sep.length) []
          else
            pySplitGo sep fuel cs (c :: cur)

/-- Python `s.split(sep)` for non-empty `sep`: split on every
(left-to-right, non-overlapping) occurrence. -/
def pySplit (sep l : List Char) : List (List Char) :=
  pySplitGo sep l.length l []

/-- Python substring containment `sep in s`. -/
def containsSub (sep : List Char) : List Char → Bool
  | [] => sep.isPrefixOf []
  | c :: cs => sep.isPrefixOf (c :: cs) || containsSub sep cs

/-- The fence-stripping of parse_screenshot (parsing.py lines 88-92):
`raw_text.split("```json")[1].split("```")[0].strip()` when a json fence
occurs, `raw_text.split("```")[1].strip()` when only a bare fence occurs,
the text unchanged otherwise. -/
def stripFences (raw : String) : String :=
  if containsSub "```json".data raw.data then
    String.mk (trimChars ((pySplit "```".data
      ((pySplit "```json".data raw.data).getD 1 [])).getD 0 []))
  else if containsSub "```".data raw.data then
    String.mk (trimChars ((pySplit "```".data raw.data).getD 1 []))
  else raw

/-- The parse step of parse_screenshot (parsing.py lines 87-96): strip
fences, run the JSON parser, and on any failure return the error dict. -/
def parse_stage (jsonLoads : String → Option PyDict) (raw : String) : PyDict :=
  match jsonLoads (stripFences raw) with
  | some d => d
  | none => [("error", PyVal.pyStr "Failed to parse JSON"),
             ("raw", PyVal.pyStr (stripFences raw))]

/-! ## The RAG pipeline (`rag.py`, `answer_query` lines 103-131)

The retriever and the LLM are external services, passed as oracles
`retrieve` and `complete`.  A retrieved node carries an optional similarity
score (`n.score is None` is possible) and its text (`n.get_content()`).
Scores are Python floats compared with `>=`; they are modelled as
rationals.  `RAG_MIN_SCORE` is the configured minimum score. -/

structure RNode where
  score : Option Rat
  content : String
deriving DecidableEq

/-- The filter predicate of rag.py line 108:
`n.score is None or n.score >= min_score`. -/
def keepNode (minScore : Rat) (n : RNode) : Bool :=
  match n.score with
  | none => true
  | some s => decide (minScore ≤ s)

def notSureMsg : String :=
  "Answer: Not sure\nExplanation: Not enough information in the context."

/-- The fixed QA prompt template of rag.py lines 116-128, filled with the
context and the query (`PromptTemplate.format`). -/
def qa_prompt (context q : String) : String :=
  "You are a driving theory exam tutor. Use ONLY the context to answer.\n" ++
  "Return exactly two lines:\n" ++
  "Answer: <option letter> - <option text>\n" ++
  "Explanation: <one or two sentences>\n" ++
  "If the answer is not in the context, write:\n" ++
  "Answer: Not sure\n" ++
  "Explanation: Not enough information in the context.\n" ++
  "Do NOT list unrelated questions or dump the context.\n\n" ++
  "Context:\n" ++ context ++ "\n\nQuestion:\n" ++ q ++ "\n\nAnswer:"

/-- Model of answer_query from rag.py (lines 103-131): retrieve, filter by
the score predicate, and if nothing survives return the fixed not-sure
message; otherwise join the surviving texts with blank lines, fill the
prompt template, call the LLM and strip the completion. -/
def answer_query (retrieve : String → List RNode)
    (complete : String → String) (minScore : Rat) (q : String) : String :=
  if ((retrieve q).filter (keepNode minScore)).isEmpty then
    notSureMsg
  else
    pyStripStr (complete (qa_prompt (String.intercalate "\n\n"
      (((retrieve q).filter (keepNode minScore)).map RNode.content)) q))

/-- Modelled from the claim wording of C2, for comparison with
`answer_query`: the five steps retrieve → filter → concatenate →
template-fill → complete, performed unconditionally for every query. -/
def claimC2Pipeline (retrieve : String → List RNode)
    (complete : String → String) (minScore : Rat) (q : String) : String :=
  pyStripStr (complete (qa_prompt (String.intercalate "\n\n"
    (((retrieve q).filter (keepNode minScore)).map RNode.content)) q))

/-- Modelled from the claim wording of C3, for comparison with `keepNode`:
keep exactly the nodes whose similarity score is at least the minimum. -/
def claimC3Keep (minScore : Rat) (n : RNode) : Bool :=
  match n.score with
  | none => false
  | some s => decide (minScore ≤ s)

/-! ## Theorems -/

theorem effectiveCount_update_other (today : String) (store : Store)
    (uid u : Int) (d : String) (c : Int) (h : u ≠ uid) :
    effectiveCount today
      (fun v => if v = uid then some (d, c) else store v) u =
    effectiveCount today store u := by
  simp [effectiveCount, h]

theorem check_denied (limitPerDay : Int) (today : String) (store : Store)
    (uid : Int) (h : limitPerDay ≤ effectiveCount today store uid) :
    check_and_increment_limit limitPerDay today store uid =
      ((false, 0), store) := by
  simp [check_and_increment_limit, h]

theorem check_allowed (limitPerDay : Int) (today : String) (store : Store)
    (uid : Int) (h : effectiveCount today store uid < limitPerDay) :
    check_and_increment_limit limitPerDay today store uid =
      ((true, max (limitPerDay - (effectiveCount today store uid + 1)) 0),
        fun u => if u = uid then
          some (today, effectiveCount today store uid + 1) else store u) := by
  simp [check_and_increment_limit, not_le.mpr h]

/-- Core bound: the number of permits granted to `uid` over any same-day
call sequence is at most `max (limitPerDay - effectiveCount) 0`, provided
the tracked user's effective count is non-negative. -/
theorem permitsFor_le (limitPerDay : Int) (today : String)
    (calls : List Int) :
    ∀ store : Store, ∀ uid : Int,
      0 ≤ effectiveCount today store uid →
      (permitsFor limitPerDay today store calls uid : Int) ≤
        max (limitPerDay - effectiveCount today store uid) 0 := by
  induction calls with
  | nil =>
      intro store uid _
      simp [permitsFor]
  | cons u rest ih =>
      intro store uid heff
      by_cases hle : limitPerDay ≤ effectiveCount today store u
      · -- the call for `u` is denied; store unchanged
        have hr := check_denied limitPerDay today store u hle
        have hrec := ih store uid heff
        simp [permitsFor, hr]
        omega
      · push_neg at hle
        have hr := check_allowed limitPerDay today store u hle
        by_cases huid : u = uid
        · subst huid
          have heff' :
              effectiveCount today
                (fun v => if v = u then
                  some (today, effectiveCount today store u + 1)
                  else store v) u =
              effectiveCount today store u + 1 := by
            simp [effectiveCount]
          have hrec := ih
            (fun v => if v = u then
              some (today, effectiveCount today store u + 1) else store v)
            u (by rw [heff']; omega)
          rw [heff'] at hrec
          simp [permitsFor, hr]
          omega
        · have hne : uid ≠ u := fun h => huid h.symm
          have heff' := effectiveCount_update_other today store u uid
            today (effectiveCount today store u + 1) hne
          have hrec := ih
            (fun v => if v = u then
              some (today, effectiveCount today store u + 1) else store v)
            uid (by rw [heff']; exact heff)
          rw [heff'] at hrec
          simp [permitsFor, hr, huid]
          omega

/-- C1: `check_and_increment_limit` permits at most `LIMIT_PER_DAY`
requests per user per UTC calendar day: (i) an absent row, and (ii) a row
whose date differs from the current UTC date, both yield an effective count
of 0; (iii) once the stored count for today has reached `LIMIT_PER_DAY` the
call returns `(False, 0)` leaving the store unchanged, and every further
same-day request for that user is denied (0 further permits); and (iv) over
any same-day call sequence the user is granted at most `LIMIT_PER_DAY`
permits. -/
theorem c1_daily_limit (limitPerDay : Int) (today : String) (store : Store)
    (uid : Int) (calls : List Int)
    (hlim : 0 ≤ limitPerDay)
    (heff : 0 ≤ effectiveCount today store uid) :
    (store uid = none → effectiveCount today store uid = 0) ∧
    (∀ d c, store uid = some (d, c) → d ≠ today →
      effectiveCount today store uid = 0) ∧
    (limitPerDay ≤ effectiveCount today store uid →
      check_and_increment_limit limitPerDay today store uid =
        ((false, 0), store) ∧
      permitsFor limitPerDay today store calls uid = 0) ∧
    (permitsFor limitPerDay today store calls uid : Int) ≤ limitPerDay := by
  refine ⟨?_, ?_, ?_, ?_⟩
  · intro h
    simp [effectiveCount, h]
  · intro d c h hd
    simp [effectiveCount, h, hd]
  · intro h
    refine ⟨check_denied limitPerDay today store uid h, ?_⟩
    have := permitsFor_le limitPerDay today calls store uid heff
    have hmax : max (limitPerDay - effectiveCount today store uid) 0 = 0 := by
      omega
    rw [hmax] at this
    omega
  · have := permitsFor_le limitPerDay today calls store uid heff
    have : (permitsFor limitPerDay today store calls uid : Int) ≤
        max (limitPerDay - effectiveCount today store uid) 0 := this
    omega

/-- Witness for C1: with a fresh store, limit 2 and three same-day requests
from user 7, exactly 2 are permitted and the bound of the theorem holds. -/
theorem c1_daily_limit_witness :
    permitsFor 2 "2026-10-12" (fun _ => none) [7, 7, 7] 7 = 2 ∧
    (permitsFor 2 "2026-10-12" (fun _ => none) [7, 7, 7] 7 : Int) ≤ 2 := by
  constructor
  · decide
  · exact (c1_daily_limit 2 "2026-10-12" (fun _ => none) 7 [7, 7, 7]
      (by decide) (by decide)).2.2.2

/-- C9: For `LIMIT_PER_DAY ≥ 0`, `check_and_increment_limit` preserves
the invariant that every stored count is at most `LIMIT_PER_DAY`; the
returned remaining value is non-negative; and a denied request
(`(False, 0)`) leaves the store unchanged. -/
theorem c9_invariant (limitPerDay : Int) (today : String) (store : Store)
    (uid : Int) (hlim : 0 ≤ limitPerDay)
    (hinv : ∀ u d c, store u = some (d, c) → c ≤ limitPerDay) :
    (∀ u d c,
      (check_and_increment_limit limitPerDay today store uid).2 u =
        some (d, c) → c ≤ limitPerDay) ∧
    0 ≤ (check_and_increment_limit limitPerDay today store uid).1.2 ∧
    ((check_and_increment_limit limitPerDay today store uid).1.1 = false →
      (check_and_increment_limit limitPerDay today store uid).2 = store) := by
  by_cases hle : limitPerDay ≤ effectiveCount today store uid
  · rw [check_denied limitPerDay today store uid hle]
    exact ⟨hinv, le_refl 0, fun _ => rfl⟩
  · push_neg at hle
    rw [check_allowed limitPerDay today store uid hle]
    refine ⟨?_, ?_, ?_⟩
    · intro u d c h
      by_cases hu : u = uid
      · subst hu
        simp at h
        obtain ⟨-, hc⟩ := h
        omega
      · simp only at h
        rw [if_neg hu] at h
        exact hinv u d c h
    · simp
    · intro h
      exact absurd h (by simp)

/-- Witness for C9: concrete run on the empty store with limit 10. -/
theorem c9_invariant_witness :
    0 ≤ (check_and_increment_limit 10 "2026-10-12" (fun _ => none) 3).1.2 :=
  (c9_invariant 10 "2026-10-12" (fun _ => none) 3 (by decide)
    (fun _ _ _ h => Option.noConfusion h)).2.1

theorem chunks3500_flatten : ∀ l : List Char, (chunks3500 l).flatten = l := by
  intro l
  induction l using chunks3500.induct with
  | case1 => simp [chunks3500]
  | case2 c cs ih =>
      rw [chunks3500, List.flatten_cons, ih, List.take_append_drop]

theorem chunks3500_le (l : List Char) :
    ∀ c ∈ chunks3500 l, c.length ≤ 3500 := by
  induction l using chunks3500.induct with
  | case1 => intro c hc; simp [chunks3500] at hc
  | case2 x xs ih =>
      intro c hc
      rw [chunks3500, List.mem_cons] at hc
      rcases hc with rfl | hc
      · rw [List.length_take]
        omega
      · exact ih c hc

theorem chunks3500_dropLast (l : List Char) :
    ∀ c ∈ (chunks3500 l).dropLast, c.length = 3500 := by
  induction l using chunks3500.induct with
  | case1 => intro c hc; simp [chunks3500] at hc
  | case2 x xs ih =>
      intro c hc
      rw [chunks3500] at hc
      rcases hrest : chunks3500 ((x :: xs).drop 3500) with _ | ⟨r, rs⟩
      · rw [hrest] at hc
        simp at hc
      · rw [hrest] at hc
        rw [List.dropLast_cons₂, List.mem_cons] at hc
        rcases hc with rfl | hc
        · have hdrop : (x :: xs).drop 3500 ≠ [] := by
            intro h
            rw [h] at hrest
            simp [chunks3500] at hrest
          have hlen : 3500 < (x :: xs).length := by
            by_contra h
            exact hdrop (List.drop_eq_nil_iff.mpr (by omega))
          rw [List.length_take]
          omega
        · have hrec := ih c
          rw [hrest] at hrec
          exact hrec hc

theorem foldl_append_data :
    ∀ (ls : List String) (acc : String),
      (List.foldl (· ++ ·) acc ls).data =
        acc.data ++ (ls.map String.data).flatten := by
  intro ls
  induction ls with
  | nil => intro acc; simp
  | cons l ls ih =>
      intro acc
      rw [List.foldl_cons, ih (acc ++ l), String.data_append,
        List.map_cons, List.flatten_cons, List.append_assoc]

theorem join_sentChunks_data (s : String) :
    (String.join (sentChunks s)).data = (chunks3500 s.data).flatten := by
  show (List.foldl (· ++ ·) "" (sentChunks s)).data = _
  rw [foldl_append_data]
  have h1 : (sentChunks s).map String.data = chunks3500 s.data := by
    simp only [sentChunks, List.map_map]
    rw [show (String.data ∘ fun l => String.mk l) = id from rfl, List.map_id]
  rw [h1]
  rfl

/-- C8: Message chunking partitions the output text: the chunks sent by
`handle_image` concatenate (in sending order) to exactly the original
string, each chunk has at most 3500 characters, and every chunk except
possibly the last has exactly 3500 characters. -/
theorem c8_chunking (s : String) :
    String.join (sentChunks s) = s ∧
    (∀ c ∈ sentChunks s, c.length ≤ 3500) ∧
    (∀ c ∈ (sentChunks s).dropLast, c.length = 3500) := by
  refine ⟨?_, ?_, ?_⟩
  · apply String.ext
    rw [join_sentChunks_data, chunks3500_flatten]
  · intro c hc
    simp only [sentChunks, List.mem_map] at hc
    obtain ⟨l, hl, rfl⟩ := hc
    exact chunks3500_le s.data l hl
  · intro c hc
    simp only [sentChunks, ← List.map_dropLast, List.mem_map] at hc
    obtain ⟨l, hl, rfl⟩ := hc
    exact chunks3500_dropLast s.data l hl

/-- Witness for C8 at a concrete 3600-character string: the first chunk (a
member of `dropLast`) has exactly 3500 characters, and every chunk has at
most 3500. -/
theorem c8_chunking_witness :
    String.mk (List.replicate 3500 'a') ∈
      (sentChunks (String.mk (List.replicate 3600 'a'))).dropLast ∧
    String.join (sentChunks (String.mk (List.replicate 3600 'a'))) =
      String.mk (List.replicate 3600 'a') ∧
    (String.mk (List.replicate 3500 'a')).length = 3500 := by
  have h100 : chunks3500 (List.replicate 100 'a') = [List.replicate 100 'a'] := by
    conv_lhs => rw [List.replicate_succ]
    rw [chunks3500, ← List.replicate_succ]
    norm_num [List.take_replicate, List.drop_replicate]
    simp [chunks3500]
  have h3600 : chunks3500 (List.replicate 3600 'a') =
      [List.replicate 3500 'a', List.replicate 100 'a'] := by
    conv_lhs => rw [List.replicate_succ]
    rw [chunks3500, ← List.replicate_succ]
    norm_num [List.take_replicate, List.drop_replicate]
    exact h100
  have hsent : sentChunks (String.mk (List.replicate 3600 'a')) =
      [String.mk (List.replicate 3500 'a'), String.mk (List.replicate 100 'a')] := by
    show (chunks3500 (String.mk (List.replicate 3600 'a')).data).map _ = _
    rw [show (String.mk (List.replicate 3600 'a')).data =
      List.replicate 3600 'a' from rfl, h3600]
    rfl
  have hmem : String.mk (List.replicate 3500 'a') ∈
      (sentChunks (String.mk (List.replicate 3600 'a'))).dropLast := by
    rw [hsent]
    simp
  exact ⟨hmem,
    (c8_chunking (String.mk (List.replicate 3600 'a'))).1,
    (c8_chunking (String.mk (List.replicate 3600 'a'))).2.2 _ hmem⟩

/-- C7: `_load_index` branches exactly on persistence state: persist
directory present → load from storage only (the document corpus is not
read); absent with the prebuilt-only flag set → `RuntimeError`; absent with
the flag unset → build from the documents and persist.  The flag defaults
to on. -/
theorem c7_load_index (persistDir : String) (pe po : Bool) :
    (pe = true →
      load_index persistDir pe po = Except.ok [IdxAction.loadStorage] ∧
      IdxAction.readDocs ∉ [IdxAction.loadStorage]) ∧
    (pe = false → po = true →
      load_index persistDir pe po = Except.error
        ("Prebuilt index not found at " ++ persistDir ++
          ". Build it locally and include the storage directory in the image.")) ∧
    (pe = false → po = false →
      load_index persistDir pe po = Except.ok
        [IdxAction.readDocs, IdxAction.buildIndex, IdxAction.persistIdx]) ∧
    prebuilt_index_flag none = true := by
  refine ⟨?_, ?_, ?_, rfl⟩
  · rintro rfl
    exact ⟨rfl, by decide⟩
  · rintro rfl rfl
    rfl
  · rintro rfl rfl
    rfl

/-- Witness for C7: the three branches at `persist_dir = "./storage"`. -/
theorem c7_load_index_witness :
    load_index "./storage" true true = Except.ok [IdxAction.loadStorage] ∧
    load_index "./storage" false true = Except.error
      ("Prebuilt index not found at ./storage" ++
        ". Build it locally and include the storage directory in the image.") ∧
    load_index "./storage" false false = Except.ok
      [IdxAction.readDocs, IdxAction.buildIndex, IdxAction.persistIdx] :=
  ⟨(c7_load_index "./storage" true true).1 rfl |>.1,
    (c7_load_index "./storage" false true).2.1 rfl rfl,
    (c7_load_index "./storage" false false).2.2.1 rfl rfl⟩

/-- C10: The CLI RAG test runner fails on every invocation: `rag`
defines no `get_query_engine`, so the import at the top of `rag_test.py`
raises `ImportError` before any input is processed. -/
theorem c10_import_error (input : String) :
    "get_query_engine" ∉ rag_module_names ∧
    rag_test_run input =
      Except.error "ImportError: cannot import name get_query_engine from rag" :=
  ⟨by decide, rfl⟩

theorem safeReplyFrom_attempts_le (outcome : Nat → SendOutcome) :
    ∀ fuel i, attemptsOf (safeReplyFrom outcome i fuel) ≤ i + fuel + 1 := by
  intro fuel
  induction fuel with
  | zero =>
      intro i
      rw [safeReplyFrom]
      rcases h : outcome i with _ | s | _ <;> simp [attemptsOf]
  | succ fuel ih =>
      intro i
      rw [safeReplyFrom]
      rcases h : outcome i with _ | s | _
      · simp [attemptsOf]
      · exact le_trans (ih (i + 1)) (by omega)
      · exact le_trans (ih (i + 1)) (by omega)

theorem safeReplyFrom_retry_reason (outcome : Nat → SendOutcome) :
    ∀ fuel i k, i ≤ k →
      k + 1 < attemptsOf (safeReplyFrom outcome i fuel) →
      outcome k ≠ SendOutcome.sendOk := by
  intro fuel
  induction fuel with
  | zero =>
      intro i k hik hk
      rw [safeReplyFrom] at hk
      rcases h : outcome i with _ | s | _ <;> rw [h] at hk <;>
        simp [attemptsOf] at hk <;> omega
  | succ fuel ih =>
      intro i k hik hk
      rw [safeReplyFrom] at hk
      rcases h : outcome i with _ | s | _ <;> rw [h] at hk
      · simp [attemptsOf] at hk
        omega
      · rcases Nat.eq_or_lt_of_le hik with rfl | hlt
        · rw [h]
          intro hc
          exact SendOutcome.noConfusion hc
        · exact ih (i + 1) k hlt hk
      · rcases Nat.eq_or_lt_of_le hik with rfl | hlt
        · rw [h]
          intro hc
          exact SendOutcome.noConfusion hc
        · exact ih (i + 1) k hlt hk

theorem safeReplyFrom_first_ok (outcome : Nat → SendOutcome) :
    ∀ fuel i j, i ≤ j → j ≤ i + fuel →
      outcome j = SendOutcome.sendOk →
      (∀ k, i ≤ k → k < j → outcome k ≠ SendOutcome.sendOk) →
      safeReplyFrom outcome i fuel = ReplyResult.sent (j + 1) := by
  intro fuel
  induction fuel with
  | zero =>
      intro i j hij hji hok hfail
      have : j = i := by omega
      subst this
      rw [safeReplyFrom, hok]
  | succ fuel ih =>
      intro i j hij hji hok hfail
      rcases Nat.eq_or_lt_of_le hij with rfl | hlt
      · rw [safeReplyFrom, hok]
      · have hne := hfail i (le_refl i) hlt
        rw [safeReplyFrom]
        rcases h : outcome i with _ | s | _
        · exact absurd h hne
        · exact ih (i + 1) j hlt (by omega) hok
            (fun k hk1 hk2 => hfail k (by omega) hk2)
        · exact ih (i + 1) j hlt (by omega) hok
            (fun k hk1 hk2 => hfail k (by omega) hk2)

theorem safeReplyFrom_all_fail (outcome : Nat → SendOutcome) :
    ∀ fuel i,
      (∀ j, i ≤ j → j ≤ i + fuel → outcome j ≠ SendOutcome.sendOk) →
      safeReplyFrom outcome i fuel = ReplyResult.raised (i + fuel + 1) := by
  intro fuel
  induction fuel with
  | zero =>
      intro i hfail
      have := hfail i (le_refl i) (by omega)
      rw [safeReplyFrom]
      rcases h : outcome i with _ | s | _
      · exact absurd h this
      · rfl
      · rfl
  | succ fuel ih =>
      intro i hfail
      have hi := hfail i (le_refl i) (by omega)
      rw [safeReplyFrom]
      rcases h : outcome i with _ | s | _
      · exact absurd h hi
      · rw [ih (i + 1) (fun j h1 h2 => hfail j (by omega) (by omega)),
          show i + 1 + fuel + 1 = i + (fuel + 1) + 1 from by omega]
      · rw [ih (i + 1) (fun j h1 h2 => hfail j (by omega) (by omega)),
          show i + 1 + fuel + 1 = i + (fuel + 1) + 1 from by omega]

/-- The claim of C5 as stated would mean a non-rate-limit send failure is
never retried: a first attempt failing with a generic exception would leave
the total attempt count at 1.  The code retries there too: with a generic
failure on attempt 0 and success on attempt 1, `safe_reply` makes 2
attempts. -/
theorem c5_counterexample :
    safe_reply (fun k => if k = 0 then SendOutcome.otherErr
      else SendOutcome.sendOk) 3 = ReplyResult.sent 2 ∧
    attemptsOf (safe_reply (fun k => if k = 0 then SendOutcome.otherErr
      else SendOutcome.sendOk) 3) ≠ 1 := by
  constructor
  · rfl
  · intro h
    simp [safe_reply, safeReplyFrom, attemptsOf] at h

/-- C5 (amended): `safe_reply` retries on every send failure — both
Telegram's `RetryAfter` rate-limit error and any other exception — up to
`retries` looped attempts followed by one final unguarded attempt: at most
`retries + 1` sends happen; an attempt beyond the first occurs only because
every earlier attempt failed; the first successful attempt (within the
budget) stops the loop with `sent`; and when all `retries + 1` attempts
fail the final failure propagates (`raised`). -/
theorem c5_amended (outcome : Nat → SendOutcome) (retries : Nat) :
    attemptsOf (safe_reply outcome retries) ≤ retries + 1 ∧
    (∀ k, k + 1 < attemptsOf (safe_reply outcome retries) →
      outcome k ≠ SendOutcome.sendOk) ∧
    (∀ j, j ≤ retries → outcome j = SendOutcome.sendOk →
      (∀ k, k < j → outcome k ≠ SendOutcome.sendOk) →
      safe_reply outcome retries = ReplyResult.sent (j + 1)) ∧
    ((∀ j, j ≤ retries → outcome j ≠ SendOutcome.sendOk) →
      safe_reply outcome retries = ReplyResult.raised (retries + 1)) := by
  refine ⟨?_, ?_, ?_, ?_⟩
  · have := safeReplyFrom_attempts_le outcome retries 0
    simpa [safe_reply] using this
  · intro k hk
    exact safeReplyFrom_retry_reason outcome retries 0 k (Nat.zero_le k) hk
  · intro j hj hok hfail
    exact safeReplyFrom_first_ok outcome retries 0 j (Nat.zero_le j)
      (by omega) hok (fun k _ hk2 => hfail k hk2)
  · intro hfail
    have := safeReplyFrom_all_fail outcome retries 0
      (fun j _ h2 => hfail j (by omega))
    simpa [safe_reply] using this

/-- Witness for C5 (amended): a `RetryAfter` failure then a generic failure
then success — three attempts, result `sent 3`, within the bound. -/
theorem c5_amended_witness :
    safe_reply (fun k => if k = 0 then SendOutcome.retryAfter 5
      else if k = 1 then SendOutcome.otherErr else SendOutcome.sendOk) 3 =
      ReplyResult.sent 3 ∧
    attemptsOf (safe_reply (fun k => if k = 0 then SendOutcome.retryAfter 5
      else if k = 1 then SendOutcome.otherErr else SendOutcome.sendOk) 3) ≤ 4 := by
  constructor
  · exact (c5_amended (fun k => if k = 0 then SendOutcome.retryAfter 5
      else if k = 1 then SendOutcome.otherErr else SendOutcome.sendOk) 3).2.2.1
      2 (by decide) (by decide) (by decide)
  · exact (c5_amended (fun k => if k = 0 then SendOutcome.retryAfter 5
      else if k = 1 then SendOutcome.otherErr else SendOutcome.sendOk) 3).1

theorem isPrefixOf_of_fence (x : List Char)
    (h : List.isPrefixOf "```json".data x = true) :
    List.isPrefixOf "```".data x = true := by
  rw [List.isPrefixOf_iff_prefix] at h ⊢
  exact List.IsPrefix.trans (by decide) h

theorem containsSub_fence_mono (l : List Char)
    (h : containsSub "```json".data l = true) :
    containsSub "```".data l = true := by
  induction l with
  | nil => simp [containsSub] at h
  | cons c cs ih =>
      rw [containsSub, Bool.or_eq_true] at h ⊢
      rcases h with h | h
      · exact Or.inl (isPrefixOf_of_fence _ h)
      · exact Or.inr (ih h)

/-- C4 counterexample: with a fenced model output, the stored `"raw"` value
is the fence-stripped text, not the raw model output. -/
theorem c4_counterexample :
    parse_stage (fun _ => none) "```json\nX\n```" =
      [("error", PyVal.pyStr "Failed to parse JSON"),
       ("raw", PyVal.pyStr "X")] ∧
    dictGet (parse_stage (fun _ => none) "```json\nX\n```") "raw" ≠
      some (PyVal.pyStr "```json\nX\n```") := by
  constructor
  · rfl
  · decide

/-- C4 (amended): whenever the JSON parser fails, `parse_screenshot`
returns (without raising) the dict with an `"error"` key and a `"raw"` key
holding the model output after code-fence stripping — equal to the raw
model output whenever no ``` fence occurs in it — and `format_result` on
that dict produces a message containing that stored raw text. -/
theorem c4_amended (jsonLoads : String → Option PyDict) (raw : String)
    (h : jsonLoads (stripFences raw) = none) :
    parse_stage jsonLoads raw =
      [("error", PyVal.pyStr "Failed to parse JSON"),
       ("raw", PyVal.pyStr (stripFences raw))] ∧
    format_result (parse_stage jsonLoads raw) =
      Except.ok ("Error: Failed to parse JSON\n\nRaw output:\n" ++
        stripFences raw) ∧
    (∃ pre, format_result (parse_stage jsonLoads raw) =
      Except.ok (pre ++ stripFences raw)) ∧
    (containsSub "```".data raw.data = false → stripFences raw = raw) := by
  have h1 : parse_stage jsonLoads raw =
      [("error", PyVal.pyStr "Failed to parse JSON"),
       ("raw", PyVal.pyStr (stripFences raw))] := by
    rw [parse_stage, h]
  have h2 : format_result (parse_stage jsonLoads raw) =
      Except.ok ("Error: Failed to parse JSON\n\nRaw output:\n" ++
        stripFences raw) := by
    rw [h1]
    rfl
  refine ⟨h1, h2, ⟨"Error: Failed to parse JSON\n\nRaw output:\n", h2⟩, ?_⟩
  intro hf
  have hfj : containsSub "```json".data raw.data = false := by
    cases hfj : containsSub "```json".data raw.data
    · rfl
    · rw [containsSub_fence_mono raw.data hfj] at hf
      exact absurd hf (by simp)
  rw [stripFences, hfj, hf]
  simp

/-- Witness for C4 (amended): a failing parse on unfenced output keeps the
raw text intact. -/
theorem c4_amended_witness :
    parse_stage (fun _ => none) "not json at all" =
      [("error", PyVal.pyStr "Failed to parse JSON"),
       ("raw", PyVal.pyStr (stripFences "not json at all"))] ∧
    stripFences "not json at all" = "not json at all" :=
  ⟨(c4_amended (fun _ => none) "not json at all" rfl).1,
    (c4_amended (fun _ => none) "not json at all" rfl).2.2.2 (by decide)⟩

theorem pyStrip_pyOrEmptyStr_eq_ok (v : PyVal)
    (h : truthy v = false ∨ ∃ s, v = PyVal.pyStr s ∧ pyStripStr s = "") :
    pyStrip (pyOrEmptyStr v) = Except.ok "" := by
  rcases h with h | ⟨s, rfl, hs⟩
  · rw [pyOrEmptyStr, h]
    rfl
  · rw [pyOrEmptyStr]
    by_cases ht : truthy (PyVal.pyStr s) = true
    · rw [if_pos ht, pyStrip, hs]
    · rw [if_neg ht]
      rfl

/-- C6: `format_result` is deterministic and depends only on the seven
fields the code reads: any two dicts agreeing on the presence of `"error"`
and on the values of `"error"`, `"raw"`, `"question"`, `"options"`,
`"correct"`, `"explanation"` and `"sign_description"` produce the identical
result; and when all those fields are empty or absent it returns the fixed
fallback string. -/
theorem c6_formatter :
    (∀ d₁ d₂ : PyDict,
      hasKey d₁ "error" = hasKey d₂ "error" →
      (∀ k ∈ ["error", "raw", "question", "options", "correct",
        "explanation", "sign_description"], dictGet d₁ k = dictGet d₂ k) →
      format_result d₁ = format_result d₂) ∧
    (∀ d : PyDict,
      hasKey d "error" = false →
      (∃ s, dictGetD d "question" (PyVal.pyStr "") = PyVal.pyStr s ∧
        pyStripStr s = "") →
      truthy (dictGetD d "options" (PyVal.pyList [])) = false →
      truthy (dictGetD d "correct" PyVal.pyNone) = false →
      (truthy (dictGetD d "explanation" PyVal.pyNone) = false ∨
        ∃ s, dictGetD d "explanation" PyVal.pyNone = PyVal.pyStr s ∧
          pyStripStr s = "") →
      (truthy (dictGetD d "sign_description" PyVal.pyNone) = false ∨
        ∃ s, dictGetD d "sign_description" PyVal.pyNone = PyVal.pyStr s ∧
          pyStripStr s = "") →
      format_result d = Except.ok fallbackMsg) := by
  constructor
  · intro d₁ d₂ he hk
    have herr := hk "error" (by simp)
    have hraw := hk "raw" (by simp)
    have hq := hk "question" (by simp)
    have hopt := hk "options" (by simp)
    have hcor := hk "correct" (by simp)
    have hexp := hk "explanation" (by simp)
    have hsig := hk "sign_description" (by simp)
    rw [format_result, format_result]
    simp only [dictGetD]
    rw [he, herr, hraw, hq, hopt, hcor, hexp, hsig]
  · intro d he hq hopt hcor hexp hsig
    obtain ⟨qs, hqs, hqs0⟩ := hq
    have hq' : pyStrip (dictGetD d "question" (PyVal.pyStr "")) =
        Except.ok "" := by
      rw [hqs]
      simp [pyStrip, hqs0]
    have hexp' := pyStrip_pyOrEmptyStr_eq_ok _ hexp
    have hsig' := pyStrip_pyOrEmptyStr_eq_ok _ hsig
    rw [format_result, he, hq', hopt]
    simp [hcor, hexp', hsig']

/-- Witness for C6: a dict with an extra irrelevant key formats like the
dict without it, and the empty dict yields the fallback string. -/
theorem c6_formatter_witness :
    format_result [("question", PyVal.pyStr "Q"), ("junk", PyVal.pyInt 3)] =
      format_result [("question", PyVal.pyStr "Q")] ∧
    format_result [] = Except.ok fallbackMsg := by
  constructor
  · exact c6_formatter.1 _ _ rfl (by intro k hk; fin_cases hk <;> rfl)
  · exact c6_formatter.2 [] rfl ⟨"", rfl, rfl⟩ rfl rfl (Or.inl rfl) (Or.inl rfl)

/-- C2 counterexample: when no retrieved node survives the filter,
`answer_query` returns the fixed not-sure message and never calls
`complete`, so it differs from the unconditional five-step pipeline the
claim describes. -/
theorem c2_counterexample :
    answer_query (fun _ => []) (fun _ => "X") 0 "q" = notSureMsg ∧
    claimC2Pipeline (fun _ => []) (fun _ => "X") 0 "q" = "X" ∧
    answer_query (fun _ => []) (fun _ => "X") 0 "q" ≠
      claimC2Pipeline (fun _ => []) (fun _ => "X") 0 "q" := by
  refine ⟨rfl, rfl, ?_⟩
  decide

/-- C2 (amended): whenever at least one retrieved node survives the score
filter, `answer_query` is exactly the claimed pipeline — retrieve, filter,
concatenate the surviving texts, fill the fixed template, call `complete`,
strip; when no node survives, it instead returns the fixed not-sure
message and the result does not depend on `complete` at all. -/
theorem c2_amended (retrieve : String → List RNode)
    (complete : String → String) (minScore : Rat) (q : String) :
    ((retrieve q).filter (keepNode minScore) ≠ [] →
      answer_query retrieve complete minScore q =
        pyStripStr (complete (qa_prompt (String.intercalate "\n\n"
          (((retrieve q).filter (keepNode minScore)).map RNode.content)) q))) ∧
    ((retrieve q).filter (keepNode minScore) = [] →
      answer_query retrieve complete minScore q = notSureMsg ∧
      ∀ complete₂ : String → String,
        answer_query retrieve complete₂ minScore q =
          answer_query retrieve complete minScore q) := by
  constructor
  · intro h
    have hne : ¬ ((retrieve q).filter (keepNode minScore)).isEmpty = true := by
      simpa [List.isEmpty_iff] using h
    rw [answer_query, if_neg hne]
  · intro h
    have he : ((retrieve q).filter (keepNode minScore)).isEmpty = true := by
      simp [List.isEmpty_iff, h]
    constructor
    · rw [answer_query, if_pos he]
    · intro complete₂
      rw [answer_query, if_pos he, answer_query, if_pos he]

/-- Witness for C2 (amended): one surviving node makes `answer_query` call
the completion on the filled template (here the completion is constant and
the stripped result is `"A"`); an empty retrieval hits the not-sure
branch. -/
theorem c2_amended_witness :
    answer_query (fun _ => [⟨some 1, "CTX"⟩]) (fun _ => " A ") 0 "q" =
      pyStripStr ((fun _ : String => " A ") (qa_prompt
        (String.intercalate "\n\n"
          ((((fun _ : String => [(⟨some 1, "CTX"⟩ : RNode)]) "q").filter
            (keepNode 0)).map RNode.content)) "q")) ∧
    answer_query (fun _ => [⟨some 1, "CTX"⟩]) (fun _ => " A ") 0 "q" = "A" ∧
    answer_query (fun _ => []) (fun _ => " A ") 0 "q" = notSureMsg := by
  refine ⟨(c2_amended (fun _ => [⟨some 1, "CTX"⟩]) (fun _ => " A ") 0 "q").1
    (by decide), rfl,
    ((c2_amended (fun _ => []) (fun _ => " A ") 0 "q").2 rfl).1⟩

/-- C3 counterexample: a node with score `None` is kept by the code's
filter (and its text reaches the prompt context), yet it has no score at
least `RAG_MIN_SCORE`; the code filter and the claimed filter disagree. -/
theorem c3_counterexample :
    List.filter (keepNode 1) [(⟨none, "t"⟩ : RNode)] = [⟨none, "t"⟩] ∧
    (¬ ∃ s, (⟨none, "t"⟩ : RNode).score = some s ∧ 1 ≤ s) ∧
    List.filter (keepNode 1) [(⟨none, "t"⟩ : RNode)] ≠
      List.filter (claimC3Keep 1) [(⟨none, "t"⟩ : RNode)] := by
  refine ⟨rfl, ?_, by decide⟩
  rintro ⟨s, hs, -⟩
  exact Option.noConfusion hs

theorem keepNode_eq_true (minScore : Rat) (n : RNode) :
    keepNode minScore n = true ↔
      (n.score = none ∨ ∃ s, n.score = some s ∧ minScore ≤ s) := by
  cases h : n.score with
  | none => simp [keepNode, h]
  | some s => simp [keepNode, h]

/-- C3 (amended): the filter keeps exactly the retrieved nodes whose score
is `None` or at least `RAG_MIN_SCORE`; in particular every retrieved node
with score at least `RAG_MIN_SCORE` is kept, but score-less nodes are kept
as well. -/
theorem c3_amended (minScore : Rat) (nodes : List RNode) (n : RNode) :
    (n ∈ nodes.filter (keepNode minScore) ↔
      n ∈ nodes ∧
        (n.score = none ∨ ∃ s, n.score = some s ∧ minScore ≤ s)) ∧
    (∀ m ∈ nodes, (∃ s, m.score = some s ∧ minScore ≤ s) →
      m ∈ nodes.filter (keepNode minScore)) := by
  constructor
  · rw [List.mem_filter, keepNode_eq_true]
  · intro m hm hs
    rw [List.mem_filter, keepNode_eq_true]
    exact ⟨hm, Or.inr hs⟩

/-- Witness for C3 (amended): in a two-node list with minimum score 1, the
node scoring 2 is kept (both by the characterization and by the
completeness part). -/
theorem c3_amended_witness :
    (⟨some 2, "a"⟩ : RNode) ∈
      List.filter (keepNode 1) [(⟨some 2, "a"⟩ : RNode), ⟨some 0, "b"⟩] ∧
    ((⟨some 2, "a"⟩ : RNode) ∈
      List.filter (keepNode 1) [(⟨some 2, "a"⟩ : RNode), ⟨some 0, "b"⟩] ↔
      (⟨some 2, "a"⟩ : RNode) ∈ [(⟨some 2, "a"⟩ : RNode), ⟨some 0, "b"⟩] ∧
        ((⟨some 2, "a"⟩ : RNode).score = none ∨
          ∃ s, (⟨some 2, "a"⟩ : RNode).score = some s ∧ 1 ≤ s)) := by
  refine ⟨(c3_amended 1 [(⟨some 2, "a"⟩ : RNode), ⟨some 0, "b"⟩] ⟨some 2, "a"⟩).2
    ⟨some 2, "a"⟩ (by decide) ⟨2, rfl, by decide⟩, ?_⟩
  exact (c3_amended 1 [(⟨some 2, "a"⟩ : RNode), ⟨some 0, "b"⟩] ⟨some 2, "a"⟩).1
